import Mathlib

/-!
Shallow embedding of the tensorforce core sources
`tensorforce/core/layers/normalization.py` and
`tensorforce/core/models/model.py`.

Modelling conventions:
* Floating-point tensor arithmetic is modelled over `ℚ` (exact arithmetic);
  the one path on which IEEE NaN is observable (the empty training batch of
  `ExponentialNormalization`, where `reduce_mean` yields NaN and `0 * NaN`
  propagates it) is additionally modelled NaN-aware over `Option ℚ`
  (`NFloat`, with `none` for NaN).
* A batched tensor is modelled as a `List` over the batch axis; each tensor
  element beyond the batch axis is collapsed to a single rational, which
  suffices for the per-slot/per-counter bookkeeping the properties concern.
* The per-slot buffers of the `Model` (one slot per parallel interaction) are
  functions `Fin parallel_interactions → ℚ`.
* Hard tensorflow assertion failures abort the whole call, so a graph entry
  point whose assertions can fail is modelled as returning `Option`, with
  `none` for an assertion failure (no state is mutated in that case).
* The graph-mode control/data-dependency ordering inside `Model.act` is
  modelled separately as an explicit edge relation between the stateful nodes
  of the traced graph; "is ordered strictly before" is the transitive closure
  of the declared edges.
-/

namespace Tensorforce

/-- A numpy float bound as consumed by `LinearNormalization`: either a finite
rational or one of the two infinities (`np.isinf` is the only operation that
distinguishes them in `apply`). -/
inductive FloatBound where
  | fin (q : ℚ)
  | posInf
  | negInf
  deriving DecidableEq

/-- Embeds `np.isinf` on a single bound element. -/
def FloatBound.isInf : FloatBound → Bool
  | .fin _ => false
  | .posInf => true
  | .negInf => true

namespace LinearNormalization

/-- Embeds `LinearNormalization.apply` (normalization.py lines 77-86) on one
tensor element: `tf.where(is_inf, x, 4.0 * (x - min_value) / (max_value - min_value) - 2.0)`,
where `is_inf = isinf(min_value) or isinf(max_value)`. -/
def apply (min_value max_value : FloatBound) (x : ℚ) : ℚ :=
  match min_value, max_value with
  | .fin a, .fin b => 4 * (x - a) / (b - a) - 2
  | _, _ => x

end LinearNormalization

/-- Embeds `tf.math.reduce_mean` over the batch axis of a non-empty batch
(exact arithmetic).  In the source the mean over an empty batch axis is
`0 / 0 = NaN`; that case is modelled faithfully by `reduceMeanF` below, and
every property stated over `reduceMean` reduces only non-empty batches. -/
def reduceMean (x : List ℚ) : ℚ := x.sum / x.length

/-- The three persisted variables of `ExponentialNormalization`
(normalization.py lines 133-146): moving mean, moving variance and the
after-first-call flag. -/
structure ExpNormState where
  moving_mean : ℚ
  moving_variance : ℚ
  after_first_call : Bool
  deriving DecidableEq

namespace ExponentialNormalization

/-- Embeds the persisted-state effect of `ExponentialNormalization.apply`
(normalization.py lines 148-193).  In independent mode nothing is assigned.
In training mode: `decay` is exponentiated by the batch size, the blend
condition is `after_first_call or batch_size == 0`; the mean is the batch
mean, blended when the condition holds; the variance is the mean squared
difference of the batch from that (already selected) mean, blended when the
condition holds; both are assigned, and the flag is assigned
`after_first_call or batch_size > 0`.  The normalized output
`(x - mean) * rsqrt(max(variance, epsilon))` is a pure function of the input
and these statistics with no state effect, and is not needed by any property
below.  This exact-arithmetic version is used for the non-empty-batch
properties; the empty-batch call, on which the source's `reduce_mean`
produces NaN, is modelled NaN-aware by `applyF` below. -/
def apply (decay : ℚ) (st : ExpNormState) (x : List ℚ) (independent : Bool) :
    ExpNormState :=
  if independent then st
  else
    let batch_size := x.length
    let decayB := decay ^ batch_size
    let condition := st.after_first_call || decide (batch_size = 0)
    let meanB := reduceMean x
    let mean := if condition then decayB * st.moving_mean + (1 - decayB) * meanB else meanB
    let varB := reduceMean (x.map (fun xi => (xi - mean) ^ 2))
    let variance :=
      if condition then decayB * st.moving_variance + (1 - decayB) * varB else varB
    { moving_mean := mean, moving_variance := variance,
      after_first_call := st.after_first_call || decide (0 < batch_size) }

/-- A sequence of calls to `apply` in a fixed mode, threading the persisted
state. -/
def applySeq (decay : ℚ) (st : ExpNormState) (xs : List (List ℚ))
    (independent : Bool) : ExpNormState :=
  xs.foldl (fun s x => apply decay s x independent) st

/-- The batch variance proper, i.e. the mean squared deviation of the batch
from its own batch mean.  This follows the claim's words ("the batch
statistics"), for comparison with what the source actually blends. -/
def batchVariance (x : List ℚ) : ℚ :=
  reduceMean (x.map (fun xi => (xi - reduceMean x) ^ 2))

/-- The claim's reading of the subsequent-call variance update: blend the
stored moving variance with the batch variance proper using weights
`decay ^ batch_size` and `1 - decay ^ batch_size`. -/
def claimedVarianceUpdate (decay : ℚ) (st : ExpNormState) (x : List ℚ) : ℚ :=
  decay ^ x.length * st.moving_variance + (1 - decay ^ x.length) * batchVariance x

end ExponentialNormalization

/-- A float value as it occurs on the empty-batch path of
`ExponentialNormalization.apply`: a finite value (modelled exactly) or NaN
(`none`).  Every operation on that path is exact in IEEE arithmetic
(`pow(d, 0) = 1`, `1 - 1 = 0`, `1 * x = x`, `0 * NaN = NaN`,
`x + NaN = NaN`), so exact rationals plus NaN propagation model it
faithfully. -/
abbrev NFloat := Option ℚ

/-- IEEE addition restricted to finite values and NaN: NaN propagates. -/
def nadd : NFloat → NFloat → NFloat
  | some a, some b => some (a + b)
  | _, _ => none

/-- IEEE subtraction restricted to finite values and NaN: NaN propagates. -/
def nsub : NFloat → NFloat → NFloat
  | some a, some b => some (a - b)
  | _, _ => none

/-- IEEE multiplication restricted to finite values and NaN: NaN propagates
(in particular `0 * NaN = NaN`). -/
def nmul : NFloat → NFloat → NFloat
  | some a, some b => some (a * b)
  | _, _ => none

/-- Embeds `tf.math.reduce_mean` over the batch axis under IEEE semantics:
the mean over an empty batch axis is `0 / 0 = NaN`, and a NaN element
propagates into the mean. -/
def reduceMeanF (x : List NFloat) : NFloat :=
  if x.length = 0 then none
  else Option.map (fun s => s / (x.length : ℚ)) (x.foldr nadd (some 0))

/-- The three persisted variables of `ExponentialNormalization` with IEEE
NaN representable (normalization.py lines 133-146). -/
structure ExpNormStateF where
  moving_mean : NFloat
  moving_variance : NFloat
  after_first_call : Bool
  deriving DecidableEq

namespace ExponentialNormalization

/-- Embeds the persisted-state effect of `ExponentialNormalization.apply`
(normalization.py lines 148-193) exactly like `apply`, but over NaN-aware
values: `reduce_mean` over an empty batch is NaN and NaN propagates through
the blend arithmetic, so what the assigns of lines 184-185 write on an empty
batch is NaN.  `decay` is a finite parameter in [0, 1] (normalization.py
lines 109-112), so `decay ^ batch_size` is finite. -/
def applyF (decay : ℚ) (st : ExpNormStateF) (x : List NFloat)
    (independent : Bool) : ExpNormStateF :=
  if independent then st
  else
    let batch_size := x.length
    let decayB : NFloat := some (decay ^ batch_size)
    let condition := st.after_first_call || decide (batch_size = 0)
    let meanB := reduceMeanF x
    let mean :=
      if condition then
        nadd (nmul decayB st.moving_mean) (nmul (nsub (some 1) decayB) meanB)
      else meanB
    let varB := reduceMeanF (x.map (fun xi => nmul (nsub xi mean) (nsub xi mean)))
    let variance :=
      if condition then
        nadd (nmul decayB st.moving_variance) (nmul (nsub (some 1) decayB) varB)
      else varB
    { moving_mean := mean, moving_variance := variance,
      after_first_call := st.after_first_call || decide (0 < batch_size) }

end ExponentialNormalization

/-- The persisted variables allocated by `Model.core_initialize`
(model.py lines 276-314): the three counters, the episode-reward accumulator
(one entry per parallel slot, `is_saved=False`), and the internal-state
buffers (one buffer per internal variable, one entry per parallel slot).
`n` is `parallel_interactions`, `k` the number of internal variables; each
internal tensor entry is collapsed to one rational. -/
structure ModelState (n k : ℕ) where
  timesteps : ℕ
  episodes : ℕ
  updates : ℕ
  episode_reward : Fin n → ℚ
  previous_internals : Fin k → Fin n → ℚ

namespace Model

/-- Embeds the initial values produced by `Model.core_initialize`: counters
and accumulator zero-initialized, every slot of each internal buffer tiled
with that internal variable's initial value `internals_init`. -/
def initState (n k : ℕ) (internals_init : Fin k → ℚ) : ModelState n k :=
  { timesteps := 0, episodes := 0, updates := 0,
    episode_reward := fun _ => 0,
    previous_internals := fun i _ => internals_init i }

/-- Embeds `is_terminal = tf.concat([[0]], terminal)[-1] > 0`
(model.py line 529): the last entry of the terminal batch, or `0` for an
empty batch, tested against zero. -/
def isTerminal (terminal : List ℕ) : Bool := decide (0 < terminal.getLastD 0)

/-- Embeds `tf.math.count_nonzero(input=terminal)` (model.py line 547). -/
def countNonzero (terminal : List ℕ) : ℕ :=
  terminal.countP (fun t => decide (0 < t))

/-- Embeds the two explicit terminal-batch assertions of `Model.observe`
(model.py lines 545-554): at most one nonzero terminal entry, and
`reduce_any(terminal > 0) == is_terminal` (a terminal, if present, must be
the last entry of the batch).  The shape/dtype/bounds `tf_assert` checks of
the input specs live in `TensorSpec.tf_assert` outside these sources; the
inputs of the embedded `observe` are well-typed by construction. -/
def observeAssertions (terminal : List ℕ) : Bool :=
  decide (countNonzero terminal ≤ 1) &&
    (terminal.any (fun t => decide (0 < t)) == isTerminal terminal)

/-- Embeds `Model.observe` (model.py lines 524-612) for a model whose
`core_observe` is the default no-op returning `false` (model.py lines
618-620).  A failed assertion aborts the call (`none`).  Otherwise:
`sum(reward)` is scatter-added into slot `parallel` of the episode-reward
accumulator; then, if the batch is terminal, that slot of every internal
buffer is scatter-updated back to its initial value, that slot of the
accumulator is scatter-updated to zero, and the episode counter is
incremented by one.  Returns `(updated, episodes, updates)` read after the
terminal handling. -/
def observe {n k : ℕ} (s : ModelState n k) (internals_init : Fin k → ℚ)
    (terminal : List ℕ) (reward : List ℚ) (parallel : Fin n) :
    Option (ModelState n k × Bool × ℕ × ℕ) :=
  if observeAssertions terminal then
    let acc := Function.update s.episode_reward parallel
      (s.episode_reward parallel + reward.sum)
    let s1 : ModelState n k := { s with episode_reward := acc }
    let updated := false
    let s2 : ModelState n k :=
      if isTerminal terminal then
        { s1 with
          previous_internals := fun i =>
            Function.update (s1.previous_internals i) parallel (internals_init i),
          episode_reward := Function.update s1.episode_reward parallel 0,
          episodes := s1.episodes + 1 }
      else s1
    some (s2, updated, s2.episodes, s2.updates)
  else none

/-- Embeds the action-mask input assertion of `Model.act` /
`Model.independent_act` (model.py lines 470-479 and 424-433):
`reduce_all(reduce_any(mask, axis=-1))`, i.e. every sample of every masked
discrete action must have at least one valid choice.  `masks` is the list of
per-sample masks over action values. -/
def masksValid (masks : List (List Bool)) : Bool := masks.all (fun m => m.any id)

/-- Embeds the gather of per-slot internal state at the requested parallel
indices (model.py lines 482-485). -/
def gatherInternals {n k : ℕ} (s : ModelState n k) (parallel : List (Fin n)) :
    Fin k → List ℚ :=
  fun i => parallel.map (s.previous_internals i)

/-- Embeds an `tf.IndexedSlices` `scatter_update`: the batch positions are
written in order, so the last write to a repeated index wins. -/
def scatterUpdate {n : ℕ} (buf : Fin n → ℚ) (indices : List (Fin n))
    (values : List ℚ) : Fin n → ℚ :=
  (indices.zip values).foldl (fun b iv => Function.update b iv.1 iv.2) buf

/-- Embeds the persisted-state effect of `Model.act` (model.py lines
450-522).  `core_act` is abstract (supplied by the algorithm layer) and is
passed in as the function mapping the gathered internals to the updated
per-batch internals; the action outputs and the action assertions touch no
persisted state and are beyond the properties modelled here.  A failed input
assertion aborts the call with no state mutation (`none`); otherwise the
updated internals are scatter-written to the requested slots, the timestep
counter is incremented by the batch size, and the new counter value is
returned with the state. -/
def act {n k : ℕ} (s : ModelState n k) (parallel : List (Fin n))
    (masks : List (List Bool)) (core_act : (Fin k → List ℚ) → Fin k → List ℚ) :
    Option (ModelState n k × ℕ) :=
  if masksValid masks then
    let internals := core_act (gatherInternals s parallel)
    let s1 : ModelState n k :=
      { s with
        previous_internals := fun i =>
          scatterUpdate (s.previous_internals i) parallel (internals i),
        timesteps := s.timesteps + parallel.length }
    some (s1, s1.timesteps)
  else none

/-- Embeds `Model.independent_act` (model.py lines 398-448): the same input
assertions gate the call, no persisted state is touched, and the abstract
`core_act` output (here an opaque list of action values) is passed through
on success. -/
def independent_act {n k : ℕ} (s : ModelState n k) (masks : List (List Bool))
    (actions : List ℚ) : Option (ModelState n k × List ℚ) :=
  if masksValid masks then some (s, actions) else none

/-- Modelled from the spec: what `format='checkpoint'` persists.  The
checkpoint writing/reading machinery (`tensorforce.core.Module` /
`tf.train.Checkpoint`, model.py lines 722-733 and 789-799 delegate to it) is
not under src/.  Per §4.6 a checkpoint is a full recursive variable-tree
snapshot, and per §8 the round trip covers the three counters and the
per-slot internal-state buffers while the episode-reward accumulator
(allocated with `is_saved=False` in `core_initialize`) is explicitly not
persisted. -/
structure Checkpoint (n k : ℕ) where
  timesteps : ℕ
  episodes : ℕ
  updates : ℕ
  previous_internals : Fin k → Fin n → ℚ

/-- Modelled from the spec: `Model.save(format='checkpoint')` snapshots the
persisted variables of the current state. -/
def save {n k : ℕ} (s : ModelState n k) : Checkpoint n k :=
  { timesteps := s.timesteps, episodes := s.episodes, updates := s.updates,
    previous_internals := s.previous_internals }

/-- Modelled from the spec: `Model.restore(format='checkpoint')` assigns the
persisted variables back into the model; the episode-reward accumulator is
not persisted and hence keeps its current value.  The restore concludes by
reading back (not mutating) the three counters, which are returned. -/
def restore {n k : ℕ} (c : Checkpoint n k) (s : ModelState n k) :
    ModelState n k × (ℕ × ℕ × ℕ) :=
  let s1 : ModelState n k :=
    { timesteps := c.timesteps, episodes := c.episodes, updates := c.updates,
      episode_reward := s.episode_reward,
      previous_internals := c.previous_internals }
  (s1, (s1.timesteps, s1.episodes, s1.updates))

/-- The stateful / ordering-relevant nodes of the graph traced by
`Model.act` (model.py lines 450-522). -/
inductive ActNode where
  | inputAssert   -- input spec assertions and mask assertions (455-479)
  | gather        -- gather of previous internals (482-485)
  | coreAct       -- core_act computation of actions and internals (488-491)
  | actionAssert  -- action assertions (494-507)
  | scatterWrite  -- scatter_update of the internal-state buffers (510-513)
  | increment     -- timesteps.assign_add (516-517)
  | output        -- final identity reads of actions and timesteps (519-522)
  deriving DecidableEq

/-- The control/data dependency edges declared by `Model.act`: the gather and
`core_act` run inside `control_dependencies(assertions)`; `core_act` consumes
the gathered internals; the action assertions, the scatter-write and the
timestep increment each depend on `core_act` outputs (the increment's control
dependencies are the flattened action/internal tensors, lines 516-517); the
final reads run inside `control_dependencies(dependencies + assertions)`,
i.e. after the scatter-write, the increment and the action assertions. -/
def actEdge : ActNode → ActNode → Bool
  | .inputAssert, .gather => true
  | .inputAssert, .coreAct => true
  | .gather, .coreAct => true
  | .coreAct, .actionAssert => true
  | .coreAct, .scatterWrite => true
  | .coreAct, .increment => true
  | .actionAssert, .output => true
  | .scatterWrite, .output => true
  | .increment, .output => true
  | _, _ => false

/-- Node `a` is ordered strictly before node `b` in the `Model.act` graph:
transitive closure of the declared dependency edges. -/
def actPrec (a b : ActNode) : Prop :=
  Relation.TransGen (fun x y => actEdge x y = true) a b

/-- A topological level function for the `Model.act` dependency graph, used
to refute orderings: every declared edge strictly increases the level. -/
def actLevel : ActNode → ℕ
  | .inputAssert => 0
  | .gather => 1
  | .coreAct => 2
  | .actionAssert => 3
  | .scatterWrite => 3
  | .increment => 3
  | .output => 4

/-- The stateful / ordering-relevant nodes of the graph traced by
`Model.independent_act` (model.py lines 398-448). -/
inductive IndepActNode where
  | inputAssert
  | coreAct
  | output
  deriving DecidableEq

/-- The dependency edges declared by `Model.independent_act`: `core_act` runs
inside `control_dependencies(assertions)` (line 435) and the returned tensors
are its outputs. -/
def indepActEdge : IndepActNode → IndepActNode → Bool
  | .inputAssert, .coreAct => true
  | .coreAct, .output => true
  | _, _ => false

/-- Ordering in the `Model.independent_act` graph. -/
def indepActPrec (a b : IndepActNode) : Prop :=
  Relation.TransGen (fun x y => indepActEdge x y = true) a b

end Model

/-- A sample persisted state over two parallel slots and one internal
variable, used to instantiate the hypotheses of the theorems below at
concrete inputs. -/
def sampleState : ModelState 2 1 :=
  { timesteps := 3, episodes := 1, updates := 0,
    episode_reward := fun _ => 2,
    previous_internals := fun _ _ => 7 }

/-- A sample initial internal-state value. -/
def sampleInit : Fin 1 → ℚ := fun _ => 5

/-- Every declared edge of the `Model.act` graph strictly increases the
topological level. -/
theorem actEdge_level_lt :
    ∀ a b : Model.ActNode, Model.actEdge a b = true → Model.actLevel a < Model.actLevel b := by
  intro a b
  cases a <;> cases b <;> decide

/-- Ordering in the `Model.act` graph strictly increases the topological
level (so nodes on the same level are unordered). -/
theorem actPrec_level_lt {a b : Model.ActNode} (h : Model.actPrec a b) :
    Model.actLevel a < Model.actLevel b := by
  induction h with
  | single h => exact actEdge_level_lt _ _ h
  | tail _ h ih => exact lt_trans ih (actEdge_level_lt _ _ h)

/-- A declared edge is an ordering. -/
theorem actPrec_of_edge {a b : Model.ActNode} (h : Model.actEdge a b = true) :
    Model.actPrec a b :=
  Relation.TransGen.single h

/-- A declared edge of the `independent_act` graph is an ordering. -/
theorem indepActPrec_of_edge {a b : Model.IndepActNode}
    (h : Model.indepActEdge a b = true) : Model.indepActPrec a b :=
  Relation.TransGen.single h

/-- C1: for every initialized Model, saving with format='checkpoint' and then
restoring with format='checkpoint' reproduces identical values of the three
counters and of all saved-variable contents, including the per-slot
internal-state buffers, while the episode-reward accumulator is not persisted
and hence not restored (it keeps whatever value the model has at restore
time). -/
theorem C1_checkpoint_roundtrip {n k : ℕ} (s sAtRestore : ModelState n k) :
    (Model.restore (Model.save s) sAtRestore).1.timesteps = s.timesteps ∧
    (Model.restore (Model.save s) sAtRestore).1.episodes = s.episodes ∧
    (Model.restore (Model.save s) sAtRestore).1.updates = s.updates ∧
    (Model.restore (Model.save s) sAtRestore).1.previous_internals = s.previous_internals ∧
    (Model.restore (Model.save s) sAtRestore).1.episode_reward = sAtRestore.episode_reward ∧
    (Model.restore (Model.save s) sAtRestore).2 = (s.timesteps, s.episodes, s.updates) :=
  ⟨rfl, rfl, rfl, rfl, rfl, rfl⟩

/-- C7: for every sequence of calls to `ExponentialNormalization.apply` with
independent=True, the stored moving mean, moving variance and after-first-call
flag are never mutated: after any number of independent-mode calls the
persisted state equals what it was before. -/
theorem C7_independent_no_mutation (decay : ℚ) (st : ExpNormState)
    (xs : List (List ℚ)) :
    ExponentialNormalization.applySeq decay st xs true = st := by
  induction xs generalizing st with
  | nil => rfl
  | cons x xs ih => exact ih st

/-- C10 counterexample: a training-mode call with an empty batch does NOT
leave the stored moving statistics unchanged.  With stored mean 3 and
variance 4: `reduce_mean` over the empty batch is NaN, the blend
`1 * stored + 0 * NaN` is NaN under IEEE arithmetic, and the assigns of
normalization.py lines 184-185 write NaN over both stored statistics. -/
theorem C10_counterexample :
    (ExponentialNormalization.applyF (1/2) ⟨some 3, some 4, false⟩ [] false).moving_mean
        = none ∧
    (ExponentialNormalization.applyF (1/2) ⟨some 3, some 4, false⟩ [] false).moving_mean
        ≠ some 3 ∧
    (ExponentialNormalization.applyF (1/2) ⟨some 3, some 4, false⟩ [] false).moving_variance
        ≠ some 4 := by
  refine ⟨rfl, ?_, ?_⟩ <;> simp [ExponentialNormalization.applyF, reduceMeanF, nadd, nmul, nsub]

/-- C10 (amended): a training-mode call to `ExponentialNormalization.apply`
with an empty batch assigns NaN to the stored moving mean and moving
variance (the empty-batch mean is NaN, and the exact zero weight
`1 - decay^0` multiplies NaN, which propagates through the blend into the
assigns), while the after-first-call flag is not set; so a later call still
counts as the first call, and commits the raw batch mean in place of the NaN
statistics. -/
theorem C10_empty_batch_nan (decay : ℚ) (st : ExpNormStateF) (x : List NFloat)
    (h : st.after_first_call = false) :
    (ExponentialNormalization.applyF decay st [] false).moving_mean = none ∧
    (ExponentialNormalization.applyF decay st [] false).moving_variance = none ∧
    (ExponentialNormalization.applyF decay st [] false).after_first_call
        = st.after_first_call ∧
    (ExponentialNormalization.applyF decay
        (ExponentialNormalization.applyF decay st [] false) x false).moving_mean
      = reduceMeanF x := by
  obtain ⟨m, v, f⟩ := st
  obtain rfl : f = false := h
  refine ⟨?_, ?_, ?_, ?_⟩
  · cases m <;> simp [ExponentialNormalization.applyF, reduceMeanF, nadd, nmul, nsub]
  · cases v <;> simp [ExponentialNormalization.applyF, reduceMeanF, nadd, nmul, nsub]
  · simp [ExponentialNormalization.applyF]
  · rcases x with _ | ⟨y, ys⟩
    · cases m <;> simp [ExponentialNormalization.applyF, reduceMeanF, nadd, nmul, nsub]
    · simp [ExponentialNormalization.applyF, reduceMeanF]

/-- C10 witness: the amended theorem applied at decay 1/2, stored statistics
(3, 4) with the flag unset, and the later singleton batch [1]. -/
theorem C10_empty_batch_nan_witness :
    (⟨some 3, some 4, false⟩ : ExpNormStateF).after_first_call = false ∧
    ((ExponentialNormalization.applyF (1/2) ⟨some 3, some 4, false⟩ [] false).moving_mean
        = none ∧
     (ExponentialNormalization.applyF (1/2) ⟨some 3, some 4, false⟩ [] false).moving_variance
        = none ∧
     (ExponentialNormalization.applyF (1/2) ⟨some 3, some 4, false⟩ [] false).after_first_call
        = (⟨some 3, some 4, false⟩ : ExpNormStateF).after_first_call ∧
     (ExponentialNormalization.applyF (1/2)
         (ExponentialNormalization.applyF (1/2) ⟨some 3, some 4, false⟩ [] false)
         [some 1] false).moving_mean = reduceMeanF [some 1]) :=
  ⟨rfl, C10_empty_batch_nan (1/2) ⟨some 3, some 4, false⟩ [some 1] rfl⟩

/-- C8: for every element with finite bounds min < max,
`LinearNormalization.apply` maps min to -2, max to +2 and the midpoint to 0,
and is strictly monotonically increasing in the input; for every element
where a bound is infinite the output equals the input. -/
theorem C8_linear_normalization (a b : ℚ) (h : a < b) :
    LinearNormalization.apply (.fin a) (.fin b) a = -2 ∧
    LinearNormalization.apply (.fin a) (.fin b) b = 2 ∧
    LinearNormalization.apply (.fin a) (.fin b) ((a + b) / 2) = 0 ∧
    (∀ x y : ℚ, x < y →
      LinearNormalization.apply (.fin a) (.fin b) x <
        LinearNormalization.apply (.fin a) (.fin b) y) ∧
    (∀ (mn mx : FloatBound) (x : ℚ), (mn.isInf || mx.isInf) = true →
      LinearNormalization.apply mn mx x = x) := by
  have hba : b - a ≠ 0 := sub_ne_zero.mpr h.ne'
  have hpos : 0 < b - a := sub_pos.mpr h
  refine ⟨?_, ?_, ?_, ?_, ?_⟩
  · simp [LinearNormalization.apply]
  · show 4 * (b - a) / (b - a) - 2 = 2
    rw [mul_div_assoc, div_self hba]
    norm_num
  · show 4 * ((a + b) / 2 - a) / (b - a) - 2 = 0
    field_simp
    ring
  · intro x y hxy
    show 4 * (x - a) / (b - a) - 2 < 4 * (y - a) / (b - a) - 2
    have h4 : 4 * (x - a) < 4 * (y - a) := by linarith
    exact sub_lt_sub_right (div_lt_div_of_pos_right h4 hpos) 2
  · intro mn mx x hinf
    cases mn <;> cases mx <;> simp_all [LinearNormalization.apply, FloatBound.isInf]

/-- C8 witness: the theorem applied at the concrete bounds 0 < 1. -/
theorem C8_linear_normalization_witness :
    (0 : ℚ) < 1 ∧
    (LinearNormalization.apply (.fin 0) (.fin 1) 0 = -2 ∧
     LinearNormalization.apply (.fin 0) (.fin 1) 1 = 2 ∧
     LinearNormalization.apply (.fin 0) (.fin 1) ((0 + 1) / 2) = 0 ∧
     (∀ x y : ℚ, x < y →
       LinearNormalization.apply (.fin 0) (.fin 1) x <
         LinearNormalization.apply (.fin 0) (.fin 1) y) ∧
     (∀ (mn mx : FloatBound) (x : ℚ), (mn.isInf || mx.isInf) = true →
       LinearNormalization.apply mn mx x = x)) :=
  ⟨by norm_num, C8_linear_normalization 0 1 (by norm_num)⟩

/-- C2 counterexample: in the dependency graph of `Model.act` the timestep
increment is NOT ordered after the internal-state scatter-write — the
increment's declared control dependencies are the action/internal tensors
(model.py lines 516-517), not the scatter op, so an observer of `timesteps`
may see the incremented value before the buffer update is visible. -/
theorem C2_counterexample : ¬ Model.actPrec .scatterWrite .increment :=
  fun h => absurd (actPrec_level_lt h) (by decide)

/-- C2 (amended): every call to `Model.act` that passes input validation
increments the timesteps counter by exactly the batch size; the increment is
ordered strictly after the core_act action/internal tensors are computed, and
the returned timestep value is ordered after both the increment and the
internal-state scatter-write; the increment itself is not ordered relative to
the scatter-write in either direction. -/
theorem C2_act_timestep_increment {n k : ℕ} (s : ModelState n k)
    (parallel : List (Fin n)) (masks : List (List Bool))
    (core_act : (Fin k → List ℚ) → Fin k → List ℚ)
    (h : Model.masksValid masks = true) :
    (∃ s1 t, Model.act s parallel masks core_act = some (s1, t) ∧
      s1.timesteps = s.timesteps + parallel.length ∧
      t = s.timesteps + parallel.length) ∧
    Model.actPrec .coreAct .increment ∧
    Model.actPrec .scatterWrite .output ∧
    Model.actPrec .increment .output ∧
    ¬ Model.actPrec .scatterWrite .increment ∧
    ¬ Model.actPrec .increment .scatterWrite := by
  refine ⟨?_, actPrec_of_edge (by decide), actPrec_of_edge (by decide),
    actPrec_of_edge (by decide), fun hp => absurd (actPrec_level_lt hp) (by decide),
    fun hp => absurd (actPrec_level_lt hp) (by decide)⟩
  unfold Model.act
  rw [h]
  exact ⟨_, _, rfl, rfl, rfl⟩

/-- C2 witness: the amended theorem applied to the sample state, the batch
of parallel indices [0, 1] and no masked actions. -/
theorem C2_act_timestep_increment_witness :
    Model.masksValid [] = true ∧
    ((∃ s1 t, Model.act sampleState [0, 1] [] (fun g => g) = some (s1, t) ∧
       s1.timesteps = sampleState.timesteps + ([0, 1] : List (Fin 2)).length ∧
       t = sampleState.timesteps + ([0, 1] : List (Fin 2)).length) ∧
     Model.actPrec .coreAct .increment ∧
     Model.actPrec .scatterWrite .output ∧
     Model.actPrec .increment .output ∧
     ¬ Model.actPrec .scatterWrite .increment ∧
     ¬ Model.actPrec .increment .scatterWrite) :=
  ⟨by decide, C2_act_timestep_increment sampleState [0, 1] [] (fun g => g) (by decide)⟩

/-- C9: an all-false auxiliaries mask for some sample makes both `Model.act`
and `Model.independent_act` fail input validation (the hard assertion that at
least one action is valid), which in both graphs is ordered strictly before
`core_act`, and the failing call mutates no persisted state. -/
theorem C9_mask_validation {n k : ℕ} (s : ModelState n k)
    (parallel : List (Fin n)) (core_act : (Fin k → List ℚ) → Fin k → List ℚ)
    (actions : List ℚ) (masks : List (List Bool)) (m : List Bool)
    (hm : m ∈ masks) (hall : m.any id = false) :
    Model.act s parallel masks core_act = none ∧
    Model.independent_act s masks actions = none ∧
    Model.actPrec .inputAssert .coreAct ∧
    Model.indepActPrec .inputAssert .coreAct := by
  have hv : Model.masksValid masks = false := by
    simp only [Model.masksValid, List.all_eq_false]
    exact ⟨m, hm, by simp [hall]⟩
  exact ⟨by simp [Model.act, hv], by simp [Model.independent_act, hv],
    actPrec_of_edge (by decide), indepActPrec_of_edge (by decide)⟩

/-- C9 witness: the theorem applied to the sample state and the concrete mask
batch [[false, false]] whose only sample masks out every action value. -/
theorem C9_mask_validation_witness :
    [false, false] ∈ [[false, false]] ∧ List.any [false, false] id = false ∧
    (Model.act sampleState [0] [[false, false]] (fun g => g) = none ∧
     Model.independent_act sampleState [[false, false]] [1] = none ∧
     Model.actPrec .inputAssert .coreAct ∧
     Model.indepActPrec .inputAssert .coreAct) :=
  ⟨by decide, by decide,
    C9_mask_validation sampleState [0] (fun g => g) [1] [[false, false]]
      [false, false] (by decide) (by decide)⟩

/-- C4: for every valid call to `Model.observe`, the sum of the reward batch
is added (not overwritten) to slot `parallel`'s episode-reward accumulator;
then, if the batch ends with a terminal, that slot's internal-state buffer
entries are reset to their initial values, that slot's accumulator is reset
to 0, and the episodes counter is incremented by exactly 1; if the batch is
not terminal, none of these resets or increments happen. -/
theorem C4_observe_reward_and_terminal {n k : ℕ} (s : ModelState n k)
    (internals_init : Fin k → ℚ) (terminal : List ℕ) (reward : List ℚ)
    (parallel : Fin n) (h : Model.observeAssertions terminal = true) :
    ∃ s2, Model.observe s internals_init terminal reward parallel
        = some (s2, false, s2.episodes, s2.updates) ∧
      s2.updates = s.updates ∧
      (Model.isTerminal terminal = true →
        (∀ i, s2.previous_internals i parallel = internals_init i) ∧
        s2.episode_reward parallel = 0 ∧
        s2.episodes = s.episodes + 1) ∧
      (Model.isTerminal terminal = false →
        s2.episode_reward parallel = s.episode_reward parallel + reward.sum ∧
        (∀ i j, s2.previous_internals i j = s.previous_internals i j) ∧
        s2.episodes = s.episodes) := by
  unfold Model.observe
  rw [h]
  cases hterm : Model.isTerminal terminal
  · refine ⟨_, rfl, rfl, by simp, fun _ => ⟨?_, fun i j => rfl, rfl⟩⟩
    simp
  · refine ⟨_, rfl, rfl, fun _ => ⟨fun i => ?_, ?_, rfl⟩, by simp⟩
    · simp
    · simp

/-- C4 witness: the theorem applied to the sample state with the valid batch
terminal=[0,1], reward=[1,2] on slot 0. -/
theorem C4_observe_reward_and_terminal_witness :
    Model.observeAssertions [0, 1] = true ∧
    (∃ s2, Model.observe sampleState sampleInit [0, 1] [(1 : ℚ), 2] 0
        = some (s2, false, s2.episodes, s2.updates) ∧
      s2.updates = sampleState.updates ∧
      (Model.isTerminal [0, 1] = true →
        (∀ i, s2.previous_internals i 0 = sampleInit i) ∧
        s2.episode_reward 0 = 0 ∧
        s2.episodes = sampleState.episodes + 1) ∧
      (Model.isTerminal [0, 1] = false →
        s2.episode_reward 0 = sampleState.episode_reward 0 + [(1 : ℚ), 2].sum ∧
        (∀ i j, s2.previous_internals i j = sampleState.previous_internals i j) ∧
        s2.episodes = sampleState.episodes)) :=
  ⟨by decide,
    C4_observe_reward_and_terminal sampleState sampleInit [0, 1] [(1 : ℚ), 2] 0 (by decide)⟩

/-- C5: a terminal observed on slot `p` (which resets slot `p`'s internal
state and episode-reward accumulator) leaves every other slot `j ≠ p`'s
internal-state buffer entries and episode-reward accumulator entry
unchanged. -/
theorem C5_observe_frame {n k : ℕ} (s : ModelState n k)
    (internals_init : Fin k → ℚ) (terminal : List ℕ) (reward : List ℚ)
    (p j : Fin n) (hne : j ≠ p) (h : Model.observeAssertions terminal = true)
    (hterm : Model.isTerminal terminal = true) :
    ∃ s2 u e up, Model.observe s internals_init terminal reward p = some (s2, u, e, up) ∧
      (∀ i, s2.previous_internals i j = s.previous_internals i j) ∧
      s2.episode_reward j = s.episode_reward j := by
  unfold Model.observe
  rw [h, hterm]
  refine ⟨_, _, _, _, rfl, fun i => ?_, ?_⟩
  · simp [Function.update_noteq hne]
  · simp [Function.update_noteq hne]

/-- C5 witness: the theorem applied to the sample state with the terminal
batch [1] on slot 0 and the untouched slot 1. -/
theorem C5_observe_frame_witness :
    (1 : Fin 2) ≠ 0 ∧ Model.observeAssertions [1] = true ∧
    Model.isTerminal [1] = true ∧
    (∃ s2 u e up, Model.observe sampleState sampleInit [1] [(3 : ℚ)] 0
        = some (s2, u, e, up) ∧
      (∀ i, s2.previous_internals i 1 = sampleState.previous_internals i 1) ∧
      s2.episode_reward 1 = sampleState.episode_reward 1) :=
  ⟨by decide, by decide, by decide,
    C5_observe_frame sampleState sampleInit [1] [(3 : ℚ)] 0 1 (by decide)
      (by decide) (by decide)⟩

/-- C6 counterexample: on a subsequent training-mode call the persisted
moving variance is NOT the blend of the stored variance with the batch
variance.  With decay 1/2, stored statistics (0, 0), flag set and batch [1]:
the source blends with the mean squared deviation from the already-blended
mean 1/2 and stores (1/2)·0 + (1/2)·(1 - 1/2)² = 1/8, while the claimed
blend with the batch variance (which is 0 for a singleton batch) gives 0. -/
theorem C6_counterexample :
    (ExponentialNormalization.apply (1/2) ⟨0, 0, true⟩ [1] false).moving_variance ≠
      ExponentialNormalization.claimedVarianceUpdate (1/2) ⟨0, 0, true⟩ [1] := by
  norm_num [ExponentialNormalization.apply,
    ExponentialNormalization.claimedVarianceUpdate,
    ExponentialNormalization.batchVariance, reduceMean]

/-- C6 (amended): in training mode on a non-empty batch, the first call
commits the raw batch mean and batch variance exactly (no blending); every
subsequent call blends the stored mean with the batch mean using weights
decay^(batch_size) and 1 - decay^(batch_size), and blends the stored
variance — with the same weights — with the mean squared deviation of the
batch from the updated (blended) moving mean, not with the batch variance
proper; the blended results are persisted and the after-first-call flag is
set. -/
theorem C6_expnorm_training_update (decay : ℚ) (st : ExpNormState) (x : List ℚ)
    (hx : x ≠ []) :
    (ExponentialNormalization.apply decay st x false).after_first_call = true ∧
    (st.after_first_call = false →
      (ExponentialNormalization.apply decay st x false).moving_mean = reduceMean x ∧
      (ExponentialNormalization.apply decay st x false).moving_variance =
        ExponentialNormalization.batchVariance x) ∧
    (st.after_first_call = true →
      (ExponentialNormalization.apply decay st x false).moving_mean =
        decay ^ x.length * st.moving_mean + (1 - decay ^ x.length) * reduceMean x ∧
      (ExponentialNormalization.apply decay st x false).moving_variance =
        decay ^ x.length * st.moving_variance + (1 - decay ^ x.length) *
          reduceMean (x.map (fun xi =>
            (xi - (decay ^ x.length * st.moving_mean +
              (1 - decay ^ x.length) * reduceMean x)) ^ 2))) := by
  have hlen : ¬ x.length = 0 := fun hl => hx (List.eq_nil_of_length_eq_zero hl)
  have hpos : 0 < x.length := Nat.pos_of_ne_zero hlen
  refine ⟨?_, fun hafc => ?_, fun hafc => ?_⟩
  · simp [ExponentialNormalization.apply, hpos]
  · constructor <;>
      simp [ExponentialNormalization.apply, ExponentialNormalization.batchVariance,
        hafc, hlen]
  · constructor <;> simp [ExponentialNormalization.apply, hafc]

/-- C6 witness: the amended theorem applied at decay 1/2, stored statistics
(0, 0) with the flag unset, and the singleton batch [1]. -/
theorem C6_expnorm_training_update_witness :
    ([1] : List ℚ) ≠ [] ∧
    ((ExponentialNormalization.apply (1/2) ⟨0, 0, false⟩ [1] false).after_first_call = true ∧
     (false = false →
       (ExponentialNormalization.apply (1/2) ⟨0, 0, false⟩ [1] false).moving_mean =
         reduceMean [1] ∧
       (ExponentialNormalization.apply (1/2) ⟨0, 0, false⟩ [1] false).moving_variance =
         ExponentialNormalization.batchVariance [1]) ∧
     (false = true →
       (ExponentialNormalization.apply (1/2) ⟨0, 0, false⟩ [1] false).moving_mean =
         (1/2) ^ ([1] : List ℚ).length * 0 +
           (1 - (1/2) ^ ([1] : List ℚ).length) * reduceMean [1] ∧
       (ExponentialNormalization.apply (1/2) ⟨0, 0, false⟩ [1] false).moving_variance =
         (1/2) ^ ([1] : List ℚ).length * 0 +
           (1 - (1/2) ^ ([1] : List ℚ).length) *
             reduceMean (([1] : List ℚ).map (fun xi =>
               (xi - ((1/2) ^ ([1] : List ℚ).length * 0 +
                 (1 - (1/2) ^ ([1] : List ℚ).length) * reduceMean [1])) ^ 2)))) :=
  ⟨by simp, C6_expnorm_training_update (1/2) ⟨0, 0, false⟩ [1] (by simp)⟩

/-- There is a nonzero entry at some index of a batch iff its nonzero count
is positive. -/
theorem exists_pos_iff_countNonzero_pos (xs : List ℕ) :
    (∃ i, i < xs.length ∧ 0 < xs.getD i 0) ↔ 0 < Model.countNonzero xs := by
  rw [Model.countNonzero, List.countP_pos_iff]
  constructor
  · rintro ⟨i, hi, hpos⟩
    refine ⟨xs.getD i 0, ?_, by simpa using hpos⟩
    rw [List.getD_eq_getElem xs 0 hi]
    exact List.getElem_mem hi
  · rintro ⟨a, ha, hpa⟩
    obtain ⟨i, hi, hival⟩ := List.mem_iff_getElem.mp ha
    exact ⟨i, hi, by rw [List.getD_eq_getElem xs 0 hi, hival]; simpa using hpa⟩

/-- The embedded `reduce_any(terminal > 0)` is true iff the nonzero count is
positive. -/
theorem any_pos_iff_countNonzero_pos (xs : List ℕ) :
    xs.any (fun t => decide (0 < t)) = true ↔ 0 < Model.countNonzero xs := by
  rw [Model.countNonzero, List.countP_pos_iff, List.any_eq_true]

/-- Characterization of the terminal-batch assertion failure of
`Model.observe`: the assertions reject the batch iff more than one terminal
flag is set or some terminal flag sits anywhere but the last position. -/
theorem observeAssertions_eq_false_iff (t : List ℕ) :
    Model.observeAssertions t = false ↔
      (1 < Model.countNonzero t ∨ ∃ i, i + 1 < t.length ∧ 0 < t.getD i 0) := by
  rcases List.eq_nil_or_concat t with rfl | ⟨xs, x, rfl⟩
  · simp [Model.observeAssertions, Model.countNonzero, Model.isTerminal]
  · rw [List.concat_eq_append]
    have hterm : Model.isTerminal (xs ++ [x]) = decide (0 < x) := by
      simp [Model.isTerminal, List.getLastD_concat]
    have hcnt : Model.countNonzero (xs ++ [x])
        = Model.countNonzero xs + (if 0 < x then 1 else 0) := by
      simp [Model.countNonzero, List.countP_append, List.countP_cons]
    have hexists : (∃ i, i + 1 < (xs ++ [x]).length ∧ 0 < (xs ++ [x]).getD i 0)
        ↔ 0 < Model.countNonzero xs := by
      rw [← exists_pos_iff_countNonzero_pos]
      constructor
      · rintro ⟨i, hi, hpos⟩
        rw [List.length_append, List.length_singleton] at hi
        have hi' : i < xs.length := by omega
        exact ⟨i, hi', by rwa [List.getD_append _ _ _ _ hi'] at hpos⟩
      · rintro ⟨i, hi, hpos⟩
        refine ⟨i, ?_, by rwa [List.getD_append _ _ _ _ hi]⟩
        rw [List.length_append, List.length_singleton]
        omega
    rw [Model.observeAssertions, hterm, hcnt, hexists, List.any_append]
    have hC := any_pos_iff_countNonzero_pos xs
    cases hA : xs.any (fun t => decide (0 < t))
    · have hc : ¬ 0 < Model.countNonzero xs :=
        fun hcc => absurd (hC.mpr hcc) (by simp [hA])
      by_cases hx : 0 < x <;> simp [hx] <;> omega
    · have hc : 0 < Model.countNonzero xs := hC.mp hA
      by_cases hx : 0 < x <;> simp [hx] <;> omega

/-- C3: `Model.observe` fails with a hard assertion if and only if its
terminal batch is invalid: it fails when more than one terminal flag is set
in the batch, and it fails when a terminal flag is set anywhere but at the
last position of the batch; a batch with at most one terminal flag, set only
in the last position (or no terminal at all), passes. -/
theorem C3_observe_terminal_assertions {n k : ℕ} (s : ModelState n k)
    (internals_init : Fin k → ℚ) (terminal : List ℕ) (reward : List ℚ)
    (parallel : Fin n) :
    Model.observe s internals_init terminal reward parallel = none ↔
      (1 < Model.countNonzero terminal ∨
        ∃ i, i + 1 < terminal.length ∧ 0 < terminal.getD i 0) := by
  rw [← observeAssertions_eq_false_iff]
  unfold Model.observe
  cases h : Model.observeAssertions terminal <;> simp [h]

end Tensorforce






